import Mathlib

/-!
Verification of the rtnetlink transport layer (`src/netlink.c`).

The C module is embedded shallowly:

* the process-wide message buffer (`msgBuffer` / `msgBufferCap` /
  `msgBufferLen`) becomes an explicit `Arena` value threaded through the
  operations; the capacity is `Arena.buf.length` and the committed length is
  `Arena.len`;
* a byte of memory is a `Nat` below 256; multi-byte stores truncate exactly
  as the C assignments to `uint16_t` / `__u32` fields do;
* memory freshly obtained from `realloc` is modelled with the byte `0xCE`
  (206), the value the DEBUG build of `nlReserveSpace` writes into it; no
  theorem below depends on this choice;
* the operating system (socket creation, `sendmsg`, `recvmsg`) is an
  explicit oracle argument: a record of call results for session setup and
  lists of outcomes for the send and receive loops.  An exhausted oracle
  models a call that blocks forever and is reported as `none`.
-/

/-! ### Protocol constants (values of the linux/netlink.h macros used) -/

/-- NLM_F_REQUEST: flag always set on outgoing messages. -/
def NLM_F_REQUEST : Nat := 1

/-- NLMSG_ERROR: message type of an embedded error record. -/
def NLMSG_ERROR : Nat := 2

/-- NLMSG_DONE: end-of-batch sentinel message type. -/
def NLMSG_DONE : Nat := 3

/-- errno value EINTR. -/
def EINTR : Nat := 4

/-- errno value EAGAIN. -/
def EAGAIN : Nat := 11

/-- errno value ENOBUFS. -/
def ENOBUFS : Nat := 105

/-- sizeof(struct nlmsghdr) = NLMSG_HDRLEN = 16. -/
def NLMSG_HDRLEN : Nat := 16

/-- sizeof(struct sockaddr_nl) = 12, the expected sender-address size. -/
def SOCKADDR_NL_SIZE : Nat := 12

/-- Modelled from the spec: `MAX_ATTR_NEST` is defined in `netlink.inl`,
which is not among the sources; the spec only fixes it as a small constant
("maximum attribute nesting depth (fixed, small)").  Every theorem below
that involves it holds for any positive value. -/
def MAX_ATTR_NEST : Nat := 8

/-- NLMSG_ALIGN / RTA_ALIGN: round up to the next multiple of 4. -/
def align4 (x : Nat) : Nat := (x + 3) / 4 * 4

/-- NLMSG_LENGTH(len) = len + NLMSG_HDRLEN. -/
def NLMSG_LENGTH (x : Nat) : Nat := x + NLMSG_HDRLEN

/-- RTA_LENGTH(len) = RTA_ALIGN(sizeof(struct rtattr)) + len = 4 + len. -/
def RTA_LENGTH (x : Nat) : Nat := 4 + x

/-! ### Byte-level memory primitives -/

/-- Read one byte; reads outside the allocation yield 0 (such reads never
happen in the runs examined by the theorems below). -/
def getByte (buf : List Nat) (i : Nat) : Nat := buf.getD i 0

/-- Store one byte (no-op outside the allocation, matching `List.set`). -/
def setByte (buf : List Nat) (i v : Nat) : List Nat := buf.set i v

/-- The two bytes of a little-endian uint16 store. -/
def u16Bytes (v : Nat) : List Nat := [v % 256, v / 256 % 256]

/-- The four bytes of a little-endian uint32 store. -/
def u32Bytes (v : Nat) : List Nat :=
  [v % 256, v / 256 % 256, v / 65536 % 256, v / 16777216 % 256]

/-- The four bytes of a little-endian int32 store (two's complement). -/
def i32Bytes (v : Int) : List Nat := u32Bytes (v % (2 ^ 32 : Int)).toNat

/-- Little-endian uint16 load. -/
def readU16 (buf : List Nat) (pos : Nat) : Nat :=
  getByte buf pos + 256 * getByte buf (pos + 1)

/-- Little-endian uint32 load. -/
def readU32 (buf : List Nat) (pos : Nat) : Nat :=
  getByte buf pos + 256 * getByte buf (pos + 1) +
    65536 * getByte buf (pos + 2) + 16777216 * getByte buf (pos + 3)

/-- Little-endian int32 load (two's complement decode). -/
def readI32 (buf : List Nat) (pos : Nat) : Int :=
  let v := readU32 buf pos
  if v < 2 ^ 31 then (v : Int) else (v : Int) - 2 ^ 32

/-- Store of a uint16 field: the C assignment writes the low 16 bits. -/
def writeU16 (buf : List Nat) (pos v : Nat) : List Nat :=
  setByte (setByte buf pos (v % 256)) (pos + 1) (v / 256 % 256)

/-- Store of a uint32 field: the C assignment writes the low 32 bits. -/
def writeU32 (buf : List Nat) (pos v : Nat) : List Nat :=
  setByte (setByte (setByte (setByte buf pos (v % 256))
    (pos + 1) (v / 256 % 256)) (pos + 2) (v / 65536 % 256))
    (pos + 3) (v / 16777216 % 256)

/-- `memcpy(buf + pos, data, data.length)`.  All uses below are in range
(`pos + data.length ≤ buf.length`), where this equals replacing the bytes
at positions `pos, …, pos + data.length - 1`. -/
def writeBytes (buf : List Nat) (pos : Nat) (data : List Nat) : List Nat :=
  buf.take pos ++ data.take (buf.length - pos) ++ buf.drop (pos + data.length)

/-! ### The shared message buffer (`msgBuffer`, `msgBufferCap`, `msgBufferLen`) -/

/-- The process-wide buffer: `buf` is the allocation (so `buf.length` is
`msgBufferCap`) and `len` is `msgBufferLen`. -/
structure Arena where
  buf : List Nat
  len : Nat
deriving Repr, DecidableEq

/-- The buffer at program start: `msgBuffer.data == NULL`. -/
def arena0 : Arena := ⟨[], 0⟩

/-- `nlReserveSpace`: grow the allocation to `2 * (msgBufferLen + amount)`
when the capacity is below `msgBufferLen + amount`.  Fresh bytes carry the
DEBUG fill value 0xCE. -/
def nlReserveSpace (a : Arena) (amount : Nat) : Arena :=
  let capacity := a.len + amount
  if a.buf.length < capacity then
    { a with buf := a.buf ++ List.replicate (capacity * 2 - a.buf.length) 206 }
  else a

/-- `nlCommitSpace`: record usage of `amount` more bytes. -/
def nlCommitSpace (a : Arena) (amount : Nat) : Arena :=
  { a with len := a.len + amount }

/-- `nlResetSpace`: discard the committed region and reserve an initial
capacity. -/
def nlResetSpace (a : Arena) (initialCapacity : Nat) : Arena :=
  nlReserveSpace { a with len := 0 } initialCapacity

/-- `nlBufferAppend`: reserve, `memcpy` to the tail, commit. -/
def nlBufferAppend (a : Arena) (data : List Nat) : Arena :=
  let a1 := nlReserveSpace a data.length
  nlCommitSpace { a1 with buf := writeBytes a1.buf a1.len data } data.length

/-- The committed byte sequence of the buffer. -/
def committed (a : Arena) : List Nat := a.buf.take a.len

/-- A sequence of `nlBufferAppend` calls. -/
def runAppends (a : Arena) (ds : List (List Nat)) : Arena :=
  ds.foldl nlBufferAppend a

/-- Total number of bytes appended by a sequence of payloads. -/
def sumLens (ds : List (List Nat)) : Nat := (ds.map List.length).sum

/-- Number of appends in the run whose `nlReserveSpace` takes the growth
(realloc) branch. -/
def growthCount (a : Arena) : List (List Nat) → Nat
  | [] => 0
  | d :: rest =>
    (if a.buf.length < a.len + d.length then 1 else 0) +
      growthCount (nlBufferAppend a d) rest

/-! ### Session state (`nlContext`) -/

/-- The per-session fields of `struct nlContext_s` that the transport layer
reads or writes: the next-sequence counter, the attribute-nesting depth and
offset array, and the kernel-assigned address (`localAddr.nl_pid`).  The
socket descriptor and the iovec plumbing are carried by the oracles
instead. -/
structure NlContext where
  nextSeq : Nat
  attrDepth : Nat
  attrNestPos : Nat → Nat
  nlPid : Nat

/-- A context as produced by a successful `nlNewContextInPlace`:
`nextSeq = 0` (line 74); `attrDepth` is first assigned by `nlInitMessage`,
so initialising it to 0 here is unobservable. -/
def freshCtx (pid : Nat) : NlContext :=
  { nextSeq := 0, attrDepth := 0, attrNestPos := fun _ => 0, nlPid := pid }

/-! ### Session construction (`nlNewContext`, `nlNewContextInPlace`) -/

/-- Results of the three OS calls made during session setup, plus the
kernel-assigned address that `getsockname` reports. -/
structure OsEnv where
  socketRes : Int
  socketErrno : Nat
  bindRes : Int
  bindErrno : Nat
  getsocknameRes : Int
  getsocknameErrno : Nat
  assignedPid : Nat

/-- `nlNewContextInPlace`: returns 0 and the initialised context on success,
or the errno of the failing step (`socket` returning -1, `bind` returning
non-zero, `getsockname` returning non-zero). -/
def nlNewContextInPlace (env : OsEnv) : Int × Option NlContext :=
  if env.socketRes = -1 then ((env.socketErrno : Int), none)
  else if env.bindRes ≠ 0 then ((env.bindErrno : Int), none)
  else if env.getsocknameRes ≠ 0 then ((env.getsocknameErrno : Int), none)
  else (0, some (freshCtx env.assignedPid))

/-- `nlNewContext`: first component is the returned pointer (`none` = NULL),
second is the value stored through `err` (`none` = not written).  The C body
is
`int res = nlNewContextInPlace(ctx); if (res == 0) return 0;`
`if (err) *err = res; free(ctx); return NULL;`
so the success path executes `return 0`, i.e. returns the null pointer. -/
def nlNewContext (env : OsEnv) : Option NlContext × Option Int :=
  let r := nlNewContextInPlace env
  if r.1 = 0 then (none, none)
  else (none, some r.1)

/-- An environment in which all three setup steps succeed. -/
def envOk : OsEnv :=
  { socketRes := 3, socketErrno := 0, bindRes := 0, bindErrno := 0,
    getsocknameRes := 0, getsocknameErrno := 0, assignedPid := 4242 }

/-! ### Message construction -/

/-- `nlInitMessage`: reset the buffer to `NLMSG_SPACE(0)` bytes, clear the
nesting stack, write the header fields `nlmsg_type` (offset 4),
`nlmsg_flags = NLM_F_REQUEST | msgFlags` (offset 6),
`nlmsg_seq = nextSeq++` (offset 8, a `__u32` store) and
`nlmsg_pid` (offset 12), and commit the 16 header bytes.
`nlmsg_len` (offset 0) is left unset until `nlSendMessage`. -/
def nlInitMessage (ctx : NlContext) (a : Arena) (msgType msgFlags : Nat) :
    NlContext × Arena :=
  let a1 := nlResetSpace a (align4 (NLMSG_LENGTH 0))
  let ctx1 := { ctx with attrDepth := 0 }
  let buf1 := writeU16 a1.buf 4 msgType
  let buf2 := writeU16 buf1 6 (Nat.lor NLM_F_REQUEST msgFlags)
  let buf3 := writeU32 buf2 8 ctx1.nextSeq
  let buf4 := writeU32 buf3 12 ctx1.nlPid
  ({ ctx1 with nextSeq := ctx1.nextSeq + 1 },
    nlCommitSpace { a1 with buf := buf4 } NLMSG_HDRLEN)

/-- `nlPushAttr`: fails with -1 at maximum depth; otherwise reserves
`RTA_SPACE(0)` bytes, writes `rta_type` (offset tail+2), records the header
offset on the nesting stack, and commits the 4 header bytes.  `rta_len`
(offset tail) is left as a placeholder. -/
def nlPushAttr (ctx : NlContext) (a : Arena) (ty : Nat) :
    Int × NlContext × Arena :=
  if MAX_ATTR_NEST ≤ ctx.attrDepth then (-1, ctx, a)
  else
    let a1 := nlReserveSpace a (align4 (RTA_LENGTH 0))
    let buf1 := writeU16 a1.buf (a1.len + 2) ty
    let ctx1 := { ctx with
      attrNestPos := fun i => if i = ctx.attrDepth then a1.len else ctx.attrNestPos i,
      attrDepth := ctx.attrDepth + 1 }
    (0, ctx1, nlCommitSpace { a1 with buf := buf1 } (RTA_LENGTH 0))

/-- `nlPopAttr`: fails with -1 on an empty stack; otherwise writes
`rta_len = RTA_LENGTH(payload)` (a `uint16_t` store) into the saved header
slot and reserves and commits — without writing — the bytes needed to reach
`RTA_SPACE(payload)` from the attribute start. -/
def nlPopAttr (ctx : NlContext) (a : Arena) : Int × NlContext × Arena :=
  if ctx.attrDepth = 0 then (-1, ctx, a)
  else
    let d := ctx.attrDepth - 1
    let pos := ctx.attrNestPos d
    let payloadLen := a.len - (pos + RTA_LENGTH 0)
    let a1 := { a with buf := writeU16 a.buf pos (RTA_LENGTH payloadLen) }
    let paddingDeficit := align4 (RTA_LENGTH payloadLen) - (a1.len - pos)
    let a2 :=
      if 0 < paddingDeficit then
        nlCommitSpace (nlReserveSpace a1 paddingDeficit) paddingDeficit
      else a1
    (0, { ctx with attrDepth := d }, a2)

/-! ### Transport / correlation engine (`nlSendMessage`) -/

/-- The caller-supplied response handler.  The C handler additionally
receives the context and the `arg` pointer; a Lean closure carries those.
Arguments: payload bytes, `NLMSG_PAYLOAD(nlm, 0)`, `nlmsg_type`,
`nlmsg_flags`. -/
def Handler : Type := List Nat → Nat → Nat → Nat → Int

/-- One recorded handler invocation. -/
structure HandlerCall where
  payload : List Nat
  len : Nat
  ty : Nat
  flags : Nat
deriving Repr, DecidableEq

/-- Outcome of one `sendmsg` call: success, or -1 with the given errno. -/
inductive SendOutcome where
  | ok : SendOutcome
  | errno : Nat → SendOutcome
deriving Repr, DecidableEq

/-- Outcome of one `recvmsg` call: -1 with the given errno, a 0 return
(socket closed), or received bytes together with the reported
`msg_namelen`. -/
inductive RecvOutcome where
  | errno : Nat → RecvOutcome
  | closed : RecvOutcome
  | data : List Nat → Nat → RecvOutcome
deriving Repr, DecidableEq

/-- Result of scanning one received batch: an early `return e` out of
`nlSendMessage`, or the batch was scanned to its end with the given
`foundResponse` flag; both carry the handler invocations made so far. -/
inductive BatchStep where
  | err : Int → List HandlerCall → BatchStep
  | scanned : Bool → List HandlerCall → BatchStep
deriving Repr, DecidableEq

/-- The `for (nlm = buffer; NLMSG_OK(nlm, res); nlm = NLMSG_NEXT(nlm, res))`
scan of `nlSendMessage` (lines 244-264).  `pos` is the offset of `nlm` in
the buffer and `remaining` is the loop's `res` (an `ssize_t`).  `fuel` only
bounds the recursion: each iteration consumes at least `NLMSG_HDRLEN = 16`
bytes of `remaining`, so with the initial `fuel = remaining` the fuel never
runs out before `NLMSG_OK` fails. -/
def processRecords (buf : List Nat) (seq : Nat) (handler : Option Handler) :
    Nat → Nat → Int → Bool → List HandlerCall → BatchStep
  | 0, _, _, found, acc => BatchStep.scanned found acc
  | fuel + 1, pos, remaining, found, acc =>
    -- NLMSG_OK(nlm, res)
    if (NLMSG_HDRLEN : Int) ≤ remaining ∧
        NLMSG_HDRLEN ≤ readU32 buf pos ∧
        (readU32 buf pos : Int) ≤ remaining then
      let mlen := readU32 buf pos
      let ty := readU16 buf (pos + 4)
      let flags := readU16 buf (pos + 6)
      let mseq := readU32 buf (pos + 8)
      if ty = NLMSG_DONE then BatchStep.scanned found acc
      else if mseq ≠ seq then
        -- responses to previous messages are ignored
        processRecords buf seq handler fuel (pos + align4 mlen)
          (remaining - (align4 mlen : Int)) found acc
      else if ty = NLMSG_ERROR ∧ readI32 buf (pos + NLMSG_HDRLEN) ≠ 0 then
        -- errors reported by the kernel are negative
        BatchStep.err (-readI32 buf (pos + NLMSG_HDRLEN)) acc
      else
        match handler with
        | none =>
          processRecords buf seq handler fuel (pos + align4 mlen)
            (remaining - (align4 mlen : Int)) true acc
        | some hf =>
          let payload := (buf.drop (pos + NLMSG_HDRLEN)).take (mlen - NLMSG_HDRLEN)
          let r := hf payload (mlen - NLMSG_HDRLEN) ty flags
          if r ≠ 0 then BatchStep.err r acc
          else
            processRecords buf seq handler fuel (pos + align4 mlen)
              (remaining - (align4 mlen : Int)) true
              (acc ++ [⟨payload, mlen - NLMSG_HDRLEN, ty, flags⟩])
    else BatchStep.scanned found acc

/-- The `while (!foundResponse)` receive loop of `nlSendMessage`
(lines 222-265).  `buf` is the shared buffer after `nlResetSpace(ctx, 4096)`
(its length is the `iov_len` used for every `recvmsg`), `seq` the cached
sent sequence number.  Returns the `return` value of `nlSendMessage`
(`none` when the oracle is exhausted, i.e. the call is still blocked) and
the handler invocations made. -/
def nlRecvLoop (buf : List Nat) (seq : Nat) (handler : Option Handler) :
    Bool → List HandlerCall → List RecvOutcome → Option Int × List HandlerCall
  | true, acc, _ => (some 0, acc)
  | false, acc, [] => (none, acc)
  | false, acc, RecvOutcome.errno e :: rest =>
    let res : Int := -1
    if res = (ENOBUFS : Int) then nlRecvLoop buf seq handler false acc rest
    else if res = (EAGAIN : Int) ∨ e = EINTR then
      nlRecvLoop buf seq handler false acc rest
    else (some (e : Int), acc)
  | false, acc, RecvOutcome.closed :: _ => (some (-1), acc)
  | false, acc, RecvOutcome.data bytes nameLen :: rest =>
    -- recvmsg truncates to the iov length, msgBufferCap
    let res := min bytes.length buf.length
    if res = 0 then (some (-1), acc)
    else if nameLen ≠ SOCKADDR_NL_SIZE then (some (-1), acc)
    else
      let buf2 := writeBytes buf 0 bytes
      match processRecords buf2 seq handler res 0 (res : Int) false acc with
      | BatchStep.err e acc2 => (some e, acc2)
      | BatchStep.scanned f acc2 => nlRecvLoop buf2 seq handler f acc2 rest

/-- The transmission loop of `nlSendMessage` (lines 200-208): retry on
EAGAIN or EINTR, fail on any other errno, stop on success.  Returns the
loop's outcome (`none` = still blocked) and the number of `sendmsg`
calls made. -/
def sendLoop : List SendOutcome → Option (Option Nat) × Nat
  | [] => (none, 0)
  | SendOutcome.ok :: _ => (some none, 1)
  | SendOutcome.errno e :: rest =>
    if e = EAGAIN ∨ e = EINTR then
      let r := sendLoop rest
      (r.1, r.2 + 1)
    else (some (some e), 1)

/-- The value `nlSendMessage` produces: its `return` value (`none` = the
call blocks forever on the oracle), the number of `sendmsg` calls made, and
the handler invocations performed. -/
structure SendResult where
  ret : Option Int
  sendAttempts : Nat
  calls : List HandlerCall
deriving Repr, DecidableEq

/-- `nlSendMessage`: refuse to send with an open attribute; finalise
`nlmsg_len` from the committed size; run the transmission loop; without
`waitResponse` return 0; otherwise cache `nlmsg_seq`, reset the buffer to a
4096-byte receive area and run the receive loop. -/
def nlSendMessage (ctx : NlContext) (a : Arena) (waitResponse : Bool)
    (handler : Option Handler) (sends : List SendOutcome)
    (recvs : List RecvOutcome) : SendResult :=
  if 0 < ctx.attrDepth then ⟨some (-1), 0, []⟩
  else
    let a1 := { a with buf := writeU32 a.buf 0 (NLMSG_LENGTH (a.len - NLMSG_HDRLEN)) }
    match sendLoop sends with
    | (none, n) => ⟨none, n, []⟩
    | (some (some e), n) => ⟨some (e : Int), n, []⟩
    | (some none, n) =>
      if !waitResponse then ⟨some 0, n, []⟩
      else
        let seq := readU32 a1.buf 8
        let a2 := nlResetSpace a1 4096
        let r := nlRecvLoop a2.buf seq handler false [] recvs
        ⟨r.1, n, r.2⟩

/-! ### Wire encoding of a response record -/

/-- The bytes of one response record: `struct nlmsghdr`
(`nlmsg_len`, `nlmsg_type`, `nlmsg_flags`, `nlmsg_seq`, `nlmsg_pid`)
followed by the payload. -/
def mkRec (len ty flags seq pid : Nat) (payload : List Nat) : List Nat :=
  u32Bytes len ++ u16Bytes ty ++ u16Bytes flags ++ u32Bytes seq ++
    u32Bytes pid ++ payload

/-! ### Concrete runs used by the theorems below -/

/-- First message of the padding scenario: a fresh header. -/
def c4s1 : NlContext × Arena := nlInitMessage (freshCtx 0) arena0 0 0

/-- Payload of the first message: eight non-zero bytes at offsets 16-23. -/
def c4s2 : Arena := nlBufferAppend c4s1.2 [1, 2, 3, 4, 5, 6, 7, 8]

/-- Second message: `nlInitMessage` discards the first one, resetting the
committed length to 16 but leaving bytes 16-23 in the allocation. -/
def c4s3 : NlContext × Arena := nlInitMessage c4s1.1 c4s2 0 0

/-- Open an attribute (header at offset 16). -/
def c4s4 : Int × NlContext × Arena := nlPushAttr c4s3.1 c4s3.2 5

/-- One byte of attribute payload at offset 20. -/
def c4s5 : Arena := nlBufferAppend c4s4.2.2 [9]

/-- Close the attribute: length patch-back and padding commit. -/
def c4s6 : Int × NlContext × Arena := nlPopAttr c4s4.2.1 c4s5

/-- One `nlInitMessage` call on a session/buffer pair. -/
def buildStep (p : NlContext × Arena) : NlContext × Arena :=
  nlInitMessage p.1 p.2 0 0

/-- State after `n` messages have been constructed in one session, starting
from a freshly constructed context and the initial buffer. -/
def buildN : Nat → NlContext × Arena
  | 0 => (freshCtx 0, arena0)
  | n + 1 => buildStep (buildN n)

/-- The `nlmsg_seq` value written into the header of message number `n`
(0-based) of a session. -/
def seqWritten (n : Nat) : Nat := readU32 (buildN (n + 1)).2.buf 8

/-- A context whose nesting depth sits at the maximum. -/
def ctxAtMax : NlContext := { freshCtx 0 with attrDepth := MAX_ATTR_NEST }

/-! ### Arithmetic and byte-level helper lemmas -/

theorem align4_le (x : Nat) : x ≤ align4 x := by
  unfold align4; omega

theorem align4_lt (x : Nat) : align4 x < x + 4 := by
  unfold align4; omega

theorem align4_mod (x : Nat) : align4 x % 4 = 0 := by
  unfold align4; omega

theorem getByte_set_eq {l : List Nat} {i : Nat} (v : Nat) (h : i < l.length) :
    getByte (setByte l i v) i = v := by
  simp [getByte, setByte, List.getD_eq_getElem?_getD, List.getElem?_set_self h]

theorem getByte_set_ne {l : List Nat} {i j : Nat} (v : Nat) (h : i ≠ j) :
    getByte (setByte l i v) j = getByte l j := by
  simp [getByte, setByte, List.getD_eq_getElem?_getD, List.getElem?_set_ne h]

theorem getByte_append_left {l1 l2 : List Nat} {i : Nat} (h : i < l1.length) :
    getByte (l1 ++ l2) i = getByte l1 i := by
  simp [getByte, List.getD_eq_getElem?_getD, List.getElem?_append_left h]

theorem getByte_append_right (l1 l2 : List Nat) (i : Nat) :
    getByte (l1 ++ l2) (l1.length + i) = getByte l2 i := by
  simp [getByte, List.getD_eq_getElem?_getD,
    List.getElem?_append_right (by omega : l1.length ≤ l1.length + i)]

theorem getByte_shift (l1 l2 : List Nat) {j i : Nat} (h : j = l1.length + i) :
    getByte (l1 ++ l2) j = getByte l2 i := by
  subst h; exact getByte_append_right l1 l2 i

theorem length_setByte (l : List Nat) (i v : Nat) :
    (setByte l i v).length = l.length := by
  simp [setByte]

theorem length_writeU16 (l : List Nat) (pos v : Nat) :
    (writeU16 l pos v).length = l.length := by
  simp [writeU16, setByte]

theorem length_writeU32 (l : List Nat) (pos v : Nat) :
    (writeU32 l pos v).length = l.length := by
  simp [writeU32, setByte]

theorem readU16_writeU16 {l : List Nat} {pos : Nat} (v : Nat)
    (h : pos + 1 < l.length) :
    readU16 (writeU16 l pos v) pos = v % 65536 := by
  unfold readU16 writeU16
  rw [getByte_set_ne _ (by omega), getByte_set_eq _ (by omega),
    getByte_set_eq _ (by simp [length_setByte]; omega)]
  omega

theorem readU32_writeU32 {l : List Nat} {pos : Nat} (v : Nat)
    (h : pos + 3 < l.length) :
    readU32 (writeU32 l pos v) pos = v % 4294967296 := by
  unfold readU32 writeU32
  rw [getByte_set_ne _ (by omega), getByte_set_ne _ (by omega),
    getByte_set_ne _ (by omega), getByte_set_eq _ (by omega),
    getByte_set_ne _ (by omega), getByte_set_ne _ (by omega),
    getByte_set_eq _ (by simp [length_setByte]; omega),
    getByte_set_ne _ (by omega),
    getByte_set_eq _ (by simp [length_setByte]; omega),
    getByte_set_eq _ (by simp [length_setByte]; omega)]
  omega

theorem getByte_writeU32_ne {l : List Nat} {pos j : Nat} (v : Nat)
    (h : j < pos ∨ pos + 3 < j) :
    getByte (writeU32 l pos v) j = getByte l j := by
  unfold writeU32
  rw [getByte_set_ne _ (by omega), getByte_set_ne _ (by omega),
    getByte_set_ne _ (by omega), getByte_set_ne _ (by omega)]

theorem readU32_writeU32_ne {l : List Nat} {pos j : Nat} (v : Nat)
    (h : j + 3 < pos ∨ pos + 3 < j) :
    readU32 (writeU32 l pos v) j = readU32 l j := by
  unfold readU32
  rw [getByte_writeU32_ne _ (by omega), getByte_writeU32_ne _ (by omega),
    getByte_writeU32_ne _ (by omega), getByte_writeU32_ne _ (by omega)]

theorem readU16_append_left {l1 l2 : List Nat} {pos : Nat}
    (h : pos + 1 < l1.length) :
    readU16 (l1 ++ l2) pos = readU16 l1 pos := by
  unfold readU16
  rw [getByte_append_left (by omega), getByte_append_left (by omega)]

theorem readU16_shift (l1 l2 : List Nat) {j i : Nat} (h : j = l1.length + i) :
    readU16 (l1 ++ l2) j = readU16 l2 i := by
  unfold readU16
  rw [getByte_shift l1 l2 h, getByte_shift l1 l2 (by omega : j + 1 = l1.length + (i + 1))]

theorem readU32_shift (l1 l2 : List Nat) {j i : Nat} (h : j = l1.length + i) :
    readU32 (l1 ++ l2) j = readU32 l2 i := by
  unfold readU32
  rw [getByte_shift l1 l2 h,
    getByte_shift l1 l2 (by omega : j + 1 = l1.length + (i + 1)),
    getByte_shift l1 l2 (by omega : j + 2 = l1.length + (i + 2)),
    getByte_shift l1 l2 (by omega : j + 3 = l1.length + (i + 3))]

theorem readI32_shift (l1 l2 : List Nat) {j i : Nat} (h : j = l1.length + i) :
    readI32 (l1 ++ l2) j = readI32 l2 i := by
  unfold readI32
  rw [readU32_shift l1 l2 h]

theorem u16Bytes_length (v : Nat) : (u16Bytes v).length = 2 := rfl

theorem u32Bytes_length (v : Nat) : (u32Bytes v).length = 4 := rfl

theorem readU16_u16Bytes (v : Nat) (rest : List Nat) :
    readU16 (u16Bytes v ++ rest) 0 = v % 65536 := by
  simp [readU16, u16Bytes, getByte]
  omega

theorem readU32_u32Bytes (v : Nat) (rest : List Nat) :
    readU32 (u32Bytes v ++ rest) 0 = v % 4294967296 := by
  simp [readU32, u32Bytes, getByte]
  omega

theorem readI32_i32Bytes (s : Int) (rest : List Nat)
    (h1 : -(2 ^ 31) ≤ s) (h2 : s < 2 ^ 31) :
    readI32 (i32Bytes s ++ rest) 0 = s := by
  unfold readI32 i32Bytes
  rw [readU32_u32Bytes]
  simp only []
  split <;> omega

theorem writeBytes_length {buf : List Nat} {pos : Nat} (data : List Nat)
    (h : pos + data.length ≤ buf.length) :
    (writeBytes buf pos data).length = buf.length := by
  simp [writeBytes]
  omega

theorem writeBytes_in_range {buf : List Nat} {pos : Nat} (data : List Nat)
    (h : pos + data.length ≤ buf.length) :
    writeBytes buf pos data = buf.take pos ++ data ++ buf.drop (pos + data.length) := by
  unfold writeBytes
  rw [List.take_of_length_le (by omega : data.length ≤ buf.length - pos)]

theorem writeBytes_all {buf : List Nat} (data : List Nat)
    (h : data.length ≤ buf.length) :
    writeBytes buf 0 data = data ++ buf.drop data.length := by
  rw [writeBytes_in_range data (by omega)]
  simp

/-! ### Buffer arena lemmas -/

theorem reserve_len (a : Arena) (n : Nat) : (nlReserveSpace a n).len = a.len := by
  unfold nlReserveSpace
  simp only []
  split <;> rfl

theorem reserve_cap (a : Arena) (n : Nat) (h : a.len ≤ a.buf.length) :
    a.len + n ≤ (nlReserveSpace a n).buf.length ∧
    a.buf.length ≤ (nlReserveSpace a n).buf.length := by
  unfold nlReserveSpace
  simp only []
  split
  · simp only [List.length_append, List.length_replicate]
    omega
  · omega

theorem reserve_getByte (a : Arena) (n : Nat) {i : Nat} (h : i < a.buf.length) :
    getByte (nlReserveSpace a n).buf i = getByte a.buf i := by
  unfold nlReserveSpace
  simp only []
  split
  · exact getByte_append_left h
  · rfl

theorem reserve_committed (a : Arena) (n : Nat) (h : a.len ≤ a.buf.length) :
    committed (nlReserveSpace a n) = committed a := by
  unfold nlReserveSpace committed
  simp only []
  split
  · simp only []
    rw [List.take_append_of_le_length h]
  · rfl

theorem append_len (a : Arena) (d : List Nat) :
    (nlBufferAppend a d).len = a.len + d.length := by
  unfold nlBufferAppend nlCommitSpace
  simp [reserve_len]

theorem append_spec (a : Arena) (d : List Nat) (h : a.len ≤ a.buf.length) :
    (nlBufferAppend a d).len ≤ (nlBufferAppend a d).buf.length ∧
    committed (nlBufferAppend a d) = committed a ++ d := by
  have hr := reserve_cap a d.length h
  have hrl := reserve_len a d.length
  have hrc := reserve_committed a d.length h
  unfold nlBufferAppend nlCommitSpace
  constructor
  · simp only []
    rw [writeBytes_length d (by omega)]
    omega
  · unfold committed at hrc ⊢
    simp only []
    rw [writeBytes_in_range d (by omega)]
    have hX : ((nlReserveSpace a d.length).buf.take (nlReserveSpace a d.length).len).length
        = (nlReserveSpace a d.length).len := by
      simp [List.length_take]
      omega
    rw [List.append_assoc,
      show (nlReserveSpace a d.length).len + d.length =
        ((nlReserveSpace a d.length).buf.take (nlReserveSpace a d.length).len).length
          + d.length from by rw [hX],
      List.take_append, hrc,
      List.take_append_of_le_length (by omega : d.length ≤ d.length),
      List.take_of_length_le (by omega : d.length ≤ d.length)]

theorem append_nogrow (a : Arena) (d : List Nat)
    (h : a.len + d.length ≤ a.buf.length) :
    (nlBufferAppend a d).buf.length = a.buf.length := by
  unfold nlBufferAppend nlCommitSpace nlReserveSpace
  rw [if_neg (by omega)]
  simp only []
  rw [writeBytes_length d (by omega)]

theorem reserve_growth_exact (a : Arena) (n : Nat)
    (h : a.buf.length < a.len + n) :
    (nlReserveSpace a n).buf.length = 2 * (a.len + n) := by
  unfold nlReserveSpace
  simp only []
  rw [if_pos h]
  simp only [List.length_append, List.length_replicate]
  omega

theorem runAppends_nil (a : Arena) : runAppends a [] = a := rfl

theorem runAppends_cons (a : Arena) (d : List Nat) (rest : List (List Nat)) :
    runAppends a (d :: rest) = runAppends (nlBufferAppend a d) rest := rfl

theorem sumLens_cons (d : List Nat) (rest : List (List Nat)) :
    sumLens (d :: rest) = d.length + sumLens rest := by
  simp [sumLens]

theorem runAppends_inv (ds : List (List Nat)) :
    ∀ a : Arena, a.len ≤ a.buf.length →
      (runAppends a ds).len ≤ (runAppends a ds).buf.length := by
  induction ds with
  | nil => intro a h; simpa [runAppends_nil]
  | cons d rest ih =>
    intro a h
    rw [runAppends_cons]
    exact ih _ (append_spec a d h).1

theorem runAppends_committed (ds : List (List Nat)) :
    ∀ a1 a2 : Arena, a1.len ≤ a1.buf.length → a2.len ≤ a2.buf.length →
      committed a1 = committed a2 →
      committed (runAppends a1 ds) = committed (runAppends a2 ds) := by
  induction ds with
  | nil => intro a1 a2 _ _ hc; simpa [runAppends_nil]
  | cons d rest ih =>
    intro a1 a2 h1 h2 hc
    rw [runAppends_cons, runAppends_cons]
    refine ih _ _ (append_spec a1 d h1).1 (append_spec a2 d h2).1 ?_
    rw [(append_spec a1 d h1).2, (append_spec a2 d h2).2, hc]

theorem growthCount_zero (ds : List (List Nat)) :
    ∀ a : Arena, a.len + sumLens ds ≤ a.buf.length → growthCount a ds = 0 := by
  induction ds with
  | nil => intro a _; rfl
  | cons d rest ih =>
    intro a h
    rw [sumLens_cons] at h
    unfold growthCount
    rw [if_neg (by omega)]
    rw [Nat.zero_add]
    apply ih
    rw [append_len, append_nogrow a d (by omega)]
    omega

/-! ### Lemmas about `nlInitMessage` iteration -/

theorem initMessage_arena (ctx : NlContext) (a : Arena) (t f : Nat)
    (h : a.buf.length = 0 ∨ a.buf.length = 32) :
    (nlInitMessage ctx a t f).2.buf.length = 32 ∧
    (nlInitMessage ctx a t f).2.len = 16 ∧
    readU32 (nlInitMessage ctx a t f).2.buf 8 = ctx.nextSeq % 4294967296 := by
  have hreset : (nlResetSpace a (align4 (NLMSG_LENGTH 0))).buf.length = 32 ∧
      (nlResetSpace a (align4 (NLMSG_LENGTH 0))).len = 0 := by
    unfold nlResetSpace nlReserveSpace
    simp only []
    rcases h with h | h
    · rw [if_pos (by rw [h]; norm_num [align4, NLMSG_LENGTH, NLMSG_HDRLEN])]
      simp only [List.length_append, List.length_replicate]
      constructor
      · rw [h]; norm_num [align4, NLMSG_LENGTH, NLMSG_HDRLEN]
      · trivial
    · rw [if_neg (by rw [h]; norm_num [align4, NLMSG_LENGTH, NLMSG_HDRLEN])]
      exact ⟨h, rfl⟩
  unfold nlInitMessage nlCommitSpace
  simp only []
  refine ⟨?_, by rw [hreset.2]; rfl, ?_⟩
  · rw [length_writeU32, length_writeU32, length_writeU16, length_writeU16]
    exact hreset.1
  · rw [readU32_writeU32_ne _ (by omega)]
    rw [readU32_writeU32 _ (by
      rw [length_writeU16, length_writeU16, hreset.1]; omega)]

theorem buildN_nextSeq (n : Nat) : (buildN n).1.nextSeq = n := by
  induction n with
  | zero => rfl
  | succ n ih =>
    show (buildStep (buildN n)).1.nextSeq = n + 1
    unfold buildStep nlInitMessage
    simp only []
    rw [ih]

theorem buildN_buflen (n : Nat) :
    (buildN n).2.buf.length = 0 ∨ (buildN n).2.buf.length = 32 := by
  induction n with
  | zero => left; rfl
  | succ n ih =>
    right
    exact (initMessage_arena (buildN n).1 (buildN n).2 0 0 ih).1

theorem seqWritten_eq (n : Nat) : seqWritten n = n % 4294967296 := by
  unfold seqWritten
  show readU32 (buildStep (buildN n)).2.buf 8 = n % 4294967296
  unfold buildStep
  rw [(initMessage_arena (buildN n).1 (buildN n).2 0 0 (buildN_buflen n)).2.2,
    buildN_nextSeq]

/-! ### Lemmas about the wire encoding of response records -/

theorem mkRec_length (l t f s p : Nat) (pl : List Nat) :
    (mkRec l t f s p pl).length = 16 + pl.length := by
  simp [mkRec, u32Bytes, u16Bytes]
  omega

theorem mkRec_read_len (l t f s p : Nat) (pl rest : List Nat) :
    readU32 (mkRec l t f s p pl ++ rest) 0 = l % 4294967296 := by
  simp only [mkRec, List.append_assoc]
  exact readU32_u32Bytes l _

theorem mkRec_read_ty (l t f s p : Nat) (pl rest : List Nat) :
    readU16 (mkRec l t f s p pl ++ rest) 4 = t % 65536 := by
  simp only [mkRec, List.append_assoc]
  rw [readU16_shift (u32Bytes l) _ (by rw [u32Bytes_length] : (4 : Nat) = (u32Bytes l).length + 0)]
  exact readU16_u16Bytes t _

theorem mkRec_read_flags (l t f s p : Nat) (pl rest : List Nat) :
    readU16 (mkRec l t f s p pl ++ rest) 6 = f % 65536 := by
  simp only [mkRec, List.append_assoc]
  rw [readU16_shift (u32Bytes l) _ (by rw [u32Bytes_length] : (6 : Nat) = (u32Bytes l).length + 2),
    readU16_shift (u16Bytes t) _ (by rw [u16Bytes_length] : (2 : Nat) = (u16Bytes t).length + 0)]
  exact readU16_u16Bytes f _

theorem mkRec_read_seq (l t f s p : Nat) (pl rest : List Nat) :
    readU32 (mkRec l t f s p pl ++ rest) 8 = s % 4294967296 := by
  simp only [mkRec, List.append_assoc]
  rw [readU32_shift (u32Bytes l) _ (by rw [u32Bytes_length] : (8 : Nat) = (u32Bytes l).length + 4),
    readU32_shift (u16Bytes t) _ (by rw [u16Bytes_length] : (4 : Nat) = (u16Bytes t).length + 2),
    readU32_shift (u16Bytes f) _ (by rw [u16Bytes_length] : (2 : Nat) = (u16Bytes f).length + 0)]
  exact readU32_u32Bytes s _

theorem mkRec_read_payload (l t f s p : Nat) (pl rest : List Nat) :
    readI32 (mkRec l t f s p pl ++ rest) 16 = readI32 (pl ++ rest) 0 := by
  simp only [mkRec, List.append_assoc]
  rw [readI32_shift (u32Bytes l) _ (by rw [u32Bytes_length] : (16 : Nat) = (u32Bytes l).length + 12),
    readI32_shift (u16Bytes t) _ (by rw [u16Bytes_length] : (12 : Nat) = (u16Bytes t).length + 10),
    readI32_shift (u16Bytes f) _ (by rw [u16Bytes_length] : (10 : Nat) = (u16Bytes f).length + 8),
    readI32_shift (u32Bytes s) _ (by rw [u32Bytes_length] : (8 : Nat) = (u32Bytes s).length + 4),
    readI32_shift (u32Bytes p) _ (by rw [u32Bytes_length] : (4 : Nat) = (u32Bytes p).length + 0)]

/-! ### Claim theorems -/

/-- C1: the claim states that when all three setup steps succeed,
`nlNewContext` returns a non-NULL pointer to the new context.  The code
instead executes `if (res == 0) return 0;`, so the fully successful call
returns the null pointer (and writes nothing through `err`); indeed the
returned pointer is NULL for every environment.  This contradicts the
header documentation ("Returns NULL on error"), establishing a code bug. -/
theorem c1_nlNewContext_null_on_success :
    nlNewContextInPlace envOk = (0, some (freshCtx 4242)) ∧
    nlNewContext envOk = (none, none) ∧
    ∀ env : OsEnv, (nlNewContext env).1 = none := by
  refine ⟨rfl, rfl, ?_⟩
  intro env
  unfold nlNewContext
  simp only []
  split <;> rfl

/-- C2: the claim states that a read failing with ENOBUFS is logged and
retried, never surfacing to the caller.  The code tests `res == ENOBUFS`
where `res` is -1 on failure, so the test never fires and the errno is
returned: a send that succeeds and a first read failing with ENOBUFS make
`nlSendMessage` return 105 regardless of any further responses. -/
theorem c2_enobufs_surfaced (a : Arena) (h : Option Handler)
    (rest : List RecvOutcome) :
    nlSendMessage (freshCtx 0) a true h [SendOutcome.ok]
      (RecvOutcome.errno ENOBUFS :: rest) = ⟨some 105, 1, []⟩ := by
  unfold nlSendMessage
  rw [if_neg (by decide)]
  simp only [sendLoop, nlRecvLoop]
  norm_num [ENOBUFS, EAGAIN, EINTR]

/-- C3: the claim states that both EINTR and EAGAIN read failures are
retried and never surfaced.  For EINTR the code retries (the `errno ==
EINTR` test is correct), but for EAGAIN it tests `res == EAGAIN` with
`res = -1`, so the test never fires and the errno 11 is returned to the
caller. -/
theorem c3_eintr_retried_eagain_surfaced :
    (∀ (buf : List Nat) (seq : Nat) (h : Option Handler)
        (acc : List HandlerCall) (rest : List RecvOutcome),
      nlRecvLoop buf seq h false acc (RecvOutcome.errno EINTR :: rest) =
        nlRecvLoop buf seq h false acc rest) ∧
    (∀ (a : Arena) (h : Option Handler),
      nlSendMessage (freshCtx 0) a true h [SendOutcome.ok]
        [RecvOutcome.errno EAGAIN] = ⟨some 11, 1, []⟩) := by
  constructor
  · intro buf seq h acc rest
    simp only [nlRecvLoop]
    norm_num [ENOBUFS, EAGAIN, EINTR]
  · intro a h
    unfold nlSendMessage
    rw [if_neg (by decide)]
    simp only [sendLoop, nlRecvLoop]
    norm_num [ENOBUFS, EAGAIN, EINTR]

/-- C4 counterexample: the claim states that a popped attribute is padded
with zero bytes up to the next 4-byte boundary.  In this concrete run a
first message fills bytes 16-23 of the shared buffer with 1..8; a second
message opens an attribute at offset 16, appends one payload byte (tail
21), and pops it.  The pop commits bytes 21-23 as padding but never writes
them, so they still hold 6, 7, 8 from the discarded first message — not
zero. -/
theorem c4_zero_padding_counterexample :
    c4s6.1 = 0 ∧ c4s5.len = 21 ∧ c4s6.2.2.len = 24 ∧
    getByte c4s6.2.2.buf 21 = 6 ∧ getByte c4s6.2.2.buf 22 = 7 ∧
    getByte c4s6.2.2.buf 23 = 8 := by decide


/-- Reading a uint16 inside the old allocation is unaffected by a
reservation. -/
theorem reserve_readU16 (b : Arena) (n : Nat) {i : Nat}
    (h : i + 1 < b.buf.length) :
    readU16 (nlReserveSpace b n).buf i = readU16 b.buf i := by
  unfold readU16
  rw [reserve_getByte _ _ (by omega), reserve_getByte _ _ (by omega)]

/-- C4 (amended): for every matched push/pop pair, `nlPopAttr` succeeds,
writes the attribute length field as header size plus payload size, and
extends the committed region exactly to the next 4-byte boundary; the
committed padding bytes are reserved but never written, so their contents
are unspecified (see the counterexample). -/
theorem c4_pop_length_and_alignment (ctx : NlContext) (a : Arena)
    (hd : 0 < ctx.attrDepth)
    (hpos : ctx.attrNestPos (ctx.attrDepth - 1) + 4 ≤ a.len)
    (hcap : a.len ≤ a.buf.length) :
    (nlPopAttr ctx a).1 = 0 ∧
    readU16 (nlPopAttr ctx a).2.2.buf (ctx.attrNestPos (ctx.attrDepth - 1)) =
      RTA_LENGTH (a.len - (ctx.attrNestPos (ctx.attrDepth - 1) + 4)) % 65536 ∧
    (nlPopAttr ctx a).2.2.len =
      ctx.attrNestPos (ctx.attrDepth - 1) +
        align4 (a.len - ctx.attrNestPos (ctx.attrDepth - 1)) ∧
    a.len ≤ (nlPopAttr ctx a).2.2.len ∧
    (nlPopAttr ctx a).2.2.len < a.len + 4 ∧
    (ctx.attrNestPos (ctx.attrDepth - 1) % 4 = 0 →
      (nlPopAttr ctx a).2.2.len % 4 = 0) := by
  have hne : ¬ ctx.attrDepth = 0 := by omega
  set pos := ctx.attrNestPos (ctx.attrDepth - 1) with hposdef
  have hal := align4_le (a.len - pos)
  have hau := align4_lt (a.len - pos)
  have ham := align4_mod (a.len - pos)
  have hv : RTA_LENGTH (a.len - (pos + RTA_LENGTH 0)) = a.len - pos := by
    unfold RTA_LENGTH
    omega
  have hv2 : RTA_LENGTH (a.len - (pos + 4)) = a.len - pos := by
    unfold RTA_LENGTH
    omega
  have hr16 : readU16 (writeU16 a.buf pos (RTA_LENGTH (a.len - (pos + RTA_LENGTH 0)))) pos
      = (a.len - pos) % 65536 := by
    rw [readU16_writeU16 _ (by omega), hv]
  unfold nlPopAttr
  rw [if_neg hne]
  simp only [← hposdef, hv, hv2]
  by_cases hpad : 0 < align4 (a.len - pos) - (Arena.len { a with buf := writeU16 a.buf pos (a.len - pos) } - pos)
  · rw [if_pos hpad]
    simp only [] at hpad
    unfold nlCommitSpace
    simp only []
    refine ⟨trivial, ?_, by rw [reserve_len]; simp only []; omega,
      by rw [reserve_len]; simp only []; omega,
      by rw [reserve_len]; simp only []; omega,
      fun hp4 => by rw [reserve_len]; simp only []; omega⟩
    rw [reserve_readU16 _ _ (by rw [length_writeU16]; omega)]
    simp only []
    rw [readU16_writeU16 _ (by omega)]
  · rw [if_neg hpad]
    simp only [] at hpad
    refine ⟨trivial, ?_, by simp only []; omega, by simp only []; omega,
      by simp only []; omega, fun hp4 => by simp only []; omega⟩
    simp only []
    rw [readU16_writeU16 _ (by omega)]

/-- C4 witness: the amended theorem applied to the concrete run of the
counterexample (attribute at offset 16, one payload byte, tail 21). -/
theorem c4_pop_length_and_alignment_witness :
    (nlPopAttr c4s4.2.1 c4s5).1 = 0 ∧
    readU16 (nlPopAttr c4s4.2.1 c4s5).2.2.buf
        (c4s4.2.1.attrNestPos (c4s4.2.1.attrDepth - 1)) =
      RTA_LENGTH (c4s5.len - (c4s4.2.1.attrNestPos (c4s4.2.1.attrDepth - 1) + 4)) % 65536 ∧
    (nlPopAttr c4s4.2.1 c4s5).2.2.len =
      c4s4.2.1.attrNestPos (c4s4.2.1.attrDepth - 1) +
        align4 (c4s5.len - c4s4.2.1.attrNestPos (c4s4.2.1.attrDepth - 1)) ∧
    c4s5.len ≤ (nlPopAttr c4s4.2.1 c4s5).2.2.len ∧
    (nlPopAttr c4s4.2.1 c4s5).2.2.len < c4s5.len + 4 ∧
    (c4s4.2.1.attrNestPos (c4s4.2.1.attrDepth - 1) % 4 = 0 →
      (nlPopAttr c4s4.2.1 c4s5).2.2.len % 4 = 0) :=
  c4_pop_length_and_alignment c4s4.2.1 c4s5 (by decide) (by decide) (by decide)

/-- C5: calling `nlSendMessage` with a non-empty attribute-nesting stack
fails with the protocol-misuse error -1 and performs no `sendmsg` call and
no handler invocation, for every buffer state, wait mode, handler and
oracle. -/
theorem c5_send_requires_empty_stack (ctx : NlContext) (a : Arena) (w : Bool)
    (h : Option Handler) (sends : List SendOutcome) (recvs : List RecvOutcome)
    (hd : 0 < ctx.attrDepth) :
    nlSendMessage ctx a w h sends recvs = ⟨some (-1), 0, []⟩ := by
  unfold nlSendMessage
  rw [if_pos hd]

/-- C5 witness: the theorem applied to a context with one open attribute
level. -/
theorem c5_send_requires_empty_stack_witness :
    0 < ctxAtMax.attrDepth ∧
    nlSendMessage ctxAtMax arena0 true none [] [] = ⟨some (-1), 0, []⟩ :=
  ⟨by decide, c5_send_requires_empty_stack ctxAtMax arena0 true none [] [] (by decide)⟩

/-- C6: builder misuse failures are side-effect free: `nlPushAttr` at
maximum depth and `nlPopAttr` on an empty stack both fail with -1 and
return the context and the buffer (committed length and contents)
completely unchanged. -/
theorem c6_misuse_failures_side_effect_free :
    (∀ (ctx : NlContext) (a : Arena) (ty : Nat),
      MAX_ATTR_NEST ≤ ctx.attrDepth → nlPushAttr ctx a ty = (-1, ctx, a)) ∧
    (∀ (ctx : NlContext) (a : Arena),
      ctx.attrDepth = 0 → nlPopAttr ctx a = (-1, ctx, a)) := by
  constructor
  · intro ctx a ty h
    unfold nlPushAttr
    rw [if_pos h]
  · intro ctx a h
    unfold nlPopAttr
    rw [if_pos h]

/-- C6 witness: both failure modes at concrete states. -/
theorem c6_misuse_failures_side_effect_free_witness :
    nlPushAttr ctxAtMax arena0 7 = (-1, ctxAtMax, arena0) ∧
    nlPopAttr (freshCtx 0) arena0 = (-1, freshCtx 0, arena0) :=
  ⟨c6_misuse_failures_side_effect_free.1 ctxAtMax arena0 7 (by decide),
    c6_misuse_failures_side_effect_free.2 (freshCtx 0) arena0 (by decide)⟩

/-- C9 counterexample: the claim states that the sequence values written
into successive message headers of one session are never reused.  The
header field is a 32-bit quantity, so message number 2^32 carries the same
header sequence value as message number 0 (and the values are not strictly
increasing at that point). -/
theorem c9_seq_reuse_counterexample :
    seqWritten 4294967296 = seqWritten 0 ∧ (4294967296 : Nat) ≠ 0 ∧
    seqWritten 4294967296 < seqWritten 4294967295 := by
  have h0 := seqWritten_eq 0
  have h1 := seqWritten_eq 4294967296
  have h2 := seqWritten_eq 4294967295
  refine ⟨by omega, by norm_num, by omega⟩

/-- C9 (amended): the per-session counter starts at 0 and is incremented
once per message; the header sequence value of message `n` is
`n mod 2^32`, so the values written into successive headers strictly
increase — and in particular are never reused — as long as fewer than 2^32
messages are sent in the session; they wrap around afterwards. -/
theorem c9_sequence_strictly_increasing :
    (∀ n : Nat, (buildN n).1.nextSeq = n) ∧
    (∀ n : Nat, seqWritten n = n % 4294967296) ∧
    (∀ i j : Nat, i < j → j < 4294967296 → seqWritten i < seqWritten j) := by
  refine ⟨buildN_nextSeq, seqWritten_eq, ?_⟩
  intro i j hij hj
  rw [seqWritten_eq, seqWritten_eq,
    Nat.mod_eq_of_lt (by omega), Nat.mod_eq_of_lt hj]
  exact hij

/-- C9 witness: counter value and header values of the first messages. -/
theorem c9_sequence_strictly_increasing_witness :
    (buildN 3).1.nextSeq = 3 ∧ seqWritten 2 = 2 ∧ seqWritten 0 < seqWritten 1 :=
  ⟨c9_sequence_strictly_increasing.1 3,
    c9_sequence_strictly_increasing.2.1 2,
    c9_sequence_strictly_increasing.2.2 0 1 (by decide) (by decide)⟩

/-- C10: a run of appends that forces at least one geometric growth step
produces exactly the committed byte sequence that a single sufficiently
large up-front reservation produces; the committed length never exceeds
the capacity at any step; the big-reservation run performs no growth; and
every growth step sets the new capacity to twice the required size. -/
theorem c10_growth_refines_big_reservation (a : Arena) (ds : List (List Nat))
    (hinv : a.len ≤ a.buf.length)
    (hgrow : 1 ≤ growthCount a ds) :
    committed (runAppends a ds) =
      committed (runAppends (nlReserveSpace a (sumLens ds)) ds) ∧
    (∀ k : Nat,
      (runAppends a (ds.take k)).len ≤ (runAppends a (ds.take k)).buf.length) ∧
    growthCount (nlReserveSpace a (sumLens ds)) ds = 0 ∧
    (∀ (b : Arena) (n : Nat), b.buf.length < b.len + n →
      (nlReserveSpace b n).buf.length = 2 * (b.len + n)) := by
  have hr := reserve_cap a (sumLens ds) hinv
  have hrl := reserve_len a (sumLens ds)
  refine ⟨?_, ?_, ?_, fun b n hb => reserve_growth_exact b n hb⟩
  · exact runAppends_committed ds a _ hinv (by omega)
      (reserve_committed a _ hinv).symm
  · intro k
    exact runAppends_inv (ds.take k) a hinv
  · exact growthCount_zero ds _ (by omega)

/-- C10 witness: a concrete run with one growth step, compared with the
single big reservation. -/
theorem c10_growth_refines_big_reservation_witness :
    1 ≤ growthCount arena0 [[1, 2, 3]] ∧
    committed (runAppends arena0 [[1, 2, 3]]) =
      committed (runAppends (nlReserveSpace arena0 (sumLens [[1, 2, 3]])) [[1, 2, 3]]) :=
  ⟨by decide,
    (c10_growth_refines_big_reservation arena0 [[1, 2, 3]] (by decide) (by decide)).1⟩

theorem c7_scan (N ty1 fl1 ty2 fl2 pid1 pid2 : Nat) (junk : List Nat) (h : Handler)
    (hN1 : 1 ≤ N) (hN2 : N < 4294967296)
    (hty1 : ty1 % 65536 ≠ 3) (hty2 : ty2 % 65536 ≠ 3) (hty2e : ty2 % 65536 ≠ 2)
    (hh : h [] 0 (ty2 % 65536) (fl2 % 65536) = 0) :
    processRecords
      (mkRec 16 ty1 fl1 (N - 1) pid1 [] ++ (mkRec 16 ty2 fl2 N pid2 [] ++ junk))
      N (some h) 32 0 32 false [] =
    BatchStep.scanned true [⟨[], 0, ty2 % 65536, fl2 % 65536⟩] := by
  set L := mkRec 16 ty1 fl1 (N - 1) pid1 [] ++ (mkRec 16 ty2 fl2 N pid2 [] ++ junk) with hL
  have hrl1 : (16 : Nat) = (mkRec 16 ty1 fl1 (N - 1) pid1 []).length + 0 := by
    simp [mkRec_length]
  have h00 : readU32 L 0 = 16 := by rw [hL, mkRec_read_len]
  have h04 : readU16 L 4 = ty1 % 65536 := by rw [hL, mkRec_read_ty]
  have h08 : readU32 L 8 = N - 1 := by
    rw [hL, mkRec_read_seq]; exact Nat.mod_eq_of_lt (by omega)
  have h160 : readU32 L 16 = 16 := by
    rw [hL, readU32_shift _ _ hrl1, mkRec_read_len]
  have h20 : readU16 L 20 = ty2 % 65536 := by
    rw [hL, readU16_shift _ _ (by simp [mkRec_length] : (20 : Nat) = (mkRec 16 ty1 fl1 (N - 1) pid1 []).length + 4),
      mkRec_read_ty]
  have h22 : readU16 L 22 = fl2 % 65536 := by
    rw [hL, readU16_shift _ _ (by simp [mkRec_length] : (22 : Nat) = (mkRec 16 ty1 fl1 (N - 1) pid1 []).length + 6),
      mkRec_read_flags]
  have h24 : readU32 L 24 = N := by
    rw [hL, readU32_shift _ _ (by simp [mkRec_length] : (24 : Nat) = (mkRec 16 ty1 fl1 (N - 1) pid1 []).length + 8),
      mkRec_read_seq]
    exact Nat.mod_eq_of_lt hN2
  have hne1 : N - 1 ≠ N := by omega
  simp [processRecords, h00, h04, h08, h160, h20, h22, h24, hne1, hty1, hty2,
    hty2e, hh, NLMSG_HDRLEN, NLMSG_DONE, NLMSG_ERROR, align4]

theorem reset_buflen (a : Arena) (n : Nat) : n ≤ (nlResetSpace a n).buf.length := by
  unfold nlResetSpace
  have := (reserve_cap { a with buf := a.buf, len := 0 } n (Nat.zero_le _)).1
  simpa using this

/-- C7: while awaiting the acknowledgment of the most recently sent
sequence number N, the receive machinery of `nlSendMessage` skips a
response record carrying sequence N-1 without surfacing any error for it,
and accepts the following record carrying sequence N: the call returns 0
and the handler is invoked exactly once, on the second record. -/
theorem c7_sequence_correlation (ctx : NlContext) (a : Arena) (h : Handler)
    (N ty1 fl1 ty2 fl2 pid1 pid2 : Nat)
    (hd : ctx.attrDepth = 0) (hseq : readU32 a.buf 8 = N)
    (hN1 : 1 ≤ N) (hN2 : N < 4294967296)
    (hty1 : ty1 % 65536 ≠ 3) (hty2 : ty2 % 65536 ≠ 3) (hty2e : ty2 % 65536 ≠ 2)
    (hh : h [] 0 (ty2 % 65536) (fl2 % 65536) = 0) :
    nlSendMessage ctx a true (some h) [SendOutcome.ok]
      [RecvOutcome.data (mkRec 16 ty1 fl1 (N - 1) pid1 [] ++ mkRec 16 ty2 fl2 N pid2 []) 12] =
    ⟨some 0, 1, [⟨[], 0, ty2 % 65536, fl2 % 65536⟩]⟩ := by
  have hloop : ∀ buf : List Nat, 32 ≤ buf.length →
      nlRecvLoop buf N (some h) false []
        [RecvOutcome.data (mkRec 16 ty1 fl1 (N - 1) pid1 [] ++ mkRec 16 ty2 fl2 N pid2 []) 12] =
      (some 0, [⟨[], 0, ty2 % 65536, fl2 % 65536⟩]) := by
    intro buf hbuf
    have hblen : (mkRec 16 ty1 fl1 (N - 1) pid1 [] ++ mkRec 16 ty2 fl2 N pid2 []).length = 32 := by
      simp [mkRec_length]
    have hwb : writeBytes buf 0 (mkRec 16 ty1 fl1 (N - 1) pid1 [] ++ mkRec 16 ty2 fl2 N pid2 []) =
        mkRec 16 ty1 fl1 (N - 1) pid1 [] ++ (mkRec 16 ty2 fl2 N pid2 [] ++ buf.drop 32) := by
      rw [writeBytes_all _ (by rw [hblen]; omega), hblen, List.append_assoc]
    have hscan := c7_scan N ty1 fl1 ty2 fl2 pid1 pid2 (buf.drop 32) h hN1 hN2
      hty1 hty2 hty2e hh
    simp [nlRecvLoop, hblen, Nat.min_eq_left (show (32 : Nat) ≤ buf.length from hbuf),
      SOCKADDR_NL_SIZE, hwb, hscan]
  have hseq2 : readU32 (writeU32 a.buf 0 (NLMSG_LENGTH (a.len - NLMSG_HDRLEN))) 8 = N := by
    rw [readU32_writeU32_ne _ (by omega), hseq]
  unfold nlSendMessage
  rw [if_neg (by omega)]
  simp only [sendLoop]
  simp only [hseq2, Bool.not_true]
  rw [hloop _ (by
    have := reset_buflen { a with buf := writeU32 a.buf 0 (NLMSG_LENGTH (a.len - NLMSG_HDRLEN)) } 4096
    omega)]
  simp

theorem i32Bytes_length (s : Int) : (i32Bytes s).length = 4 := rfl

theorem c8_scan (N fl pid : Nat) (s : Int) (echo junk : List Nat) (h : Handler)
    (hN : N < 4294967296) (hs0 : s ≠ 0) (hs1 : -(2 ^ 31) ≤ s) (hs2 : s < 2 ^ 31) :
    processRecords (mkRec 36 2 fl N pid (i32Bytes s ++ echo) ++ junk)
      N (some h) 36 0 36 false [] =
    BatchStep.err (-s) [] := by
  set L := mkRec 36 2 fl N pid (i32Bytes s ++ echo) ++ junk with hL
  have h00 : readU32 L 0 = 36 := by rw [hL, mkRec_read_len]
  have h04 : readU16 L 4 = 2 := by rw [hL, mkRec_read_ty]
  have h08 : readU32 L 8 = N := by
    rw [hL, mkRec_read_seq]; exact Nat.mod_eq_of_lt hN
  have h16 : readI32 L 16 = s := by
    rw [hL, mkRec_read_payload, List.append_assoc, readI32_i32Bytes s _ hs1 hs2]
  simp [processRecords, h00, h04, h08, h16, hs0, NLMSG_HDRLEN, NLMSG_DONE,
    NLMSG_ERROR]

/-- C8: a matching response record that is an embedded error record with
non-zero status `s` makes `nlSendMessage` return `-s` (for the kernel
convention of negative `s`, a positive standard error code magnitude), and
the handler is not invoked for that record. -/
theorem c8_error_decode (ctx : NlContext) (a : Arena) (h : Handler)
    (N fl pid : Nat) (s : Int) (echo : List Nat)
    (hd : ctx.attrDepth = 0) (hseq : readU32 a.buf 8 = N)
    (hN : N < 4294967296) (hs0 : s ≠ 0)
    (hs1 : -(2 ^ 31) ≤ s) (hs2 : s < 2 ^ 31) (hecho : echo.length = 16) :
    nlSendMessage ctx a true (some h) [SendOutcome.ok]
      [RecvOutcome.data (mkRec 36 2 fl N pid (i32Bytes s ++ echo)) 12] =
    ⟨some (-s), 1, []⟩ := by
  have hblen : (mkRec 36 2 fl N pid (i32Bytes s ++ echo)).length = 36 := by
    simp [mkRec_length, i32Bytes_length, hecho]
  have hloop : ∀ buf : List Nat, 36 ≤ buf.length →
      nlRecvLoop buf N (some h) false []
        [RecvOutcome.data (mkRec 36 2 fl N pid (i32Bytes s ++ echo)) 12] =
      (some (-s), []) := by
    intro buf hbuf
    have hwb : writeBytes buf 0 (mkRec 36 2 fl N pid (i32Bytes s ++ echo)) =
        mkRec 36 2 fl N pid (i32Bytes s ++ echo) ++ buf.drop 36 := by
      rw [writeBytes_all _ (by rw [hblen]; omega), hblen]
    have hscan := c8_scan N fl pid s echo (buf.drop 36) h hN hs0 hs1 hs2
    simp [nlRecvLoop, hblen, Nat.min_eq_left (show (36 : Nat) ≤ buf.length from hbuf),
      SOCKADDR_NL_SIZE, hwb, hscan]
  have hseq2 : readU32 (writeU32 a.buf 0 (NLMSG_LENGTH (a.len - NLMSG_HDRLEN))) 8 = N := by
    rw [readU32_writeU32_ne _ (by omega), hseq]
  unfold nlSendMessage
  rw [if_neg (by omega)]
  simp only [sendLoop]
  simp only [hseq2, Bool.not_true]
  rw [hloop _ (by
    have := reset_buflen { a with buf := writeU32 a.buf 0 (NLMSG_LENGTH (a.len - NLMSG_HDRLEN)) } 4096
    omega)]
  simp

set_option maxRecDepth 10000 in
/-- C7 witness: the theorem applied after eight real messages of a session
(awaited sequence 7), with a batch holding records of sequence 6 and 7. -/
theorem c7_sequence_correlation_witness :
    nlSendMessage (buildN 8).1 (buildN 8).2 true (some ((fun _ _ _ _ => 0) : Handler))
      [SendOutcome.ok]
      [RecvOutcome.data (mkRec 16 24 0 6 0 [] ++ mkRec 16 24 0 7 0 []) 12] =
    ⟨some 0, 1, [⟨[], 0, 24, 0⟩]⟩ :=
  c7_sequence_correlation (buildN 8).1 (buildN 8).2 _ 7 24 0 24 0 0 0
    (by decide) (by decide) (by decide) (by decide) (by decide) (by decide)
    (by decide) rfl

set_option maxRecDepth 10000 in
/-- C8 witness: the theorem applied after eight real messages of a session
(awaited sequence 7), with an error record carrying status -13; the call
surfaces the permission-denied magnitude 13. -/
theorem c8_error_decode_witness :
    nlSendMessage (buildN 8).1 (buildN 8).2 true (some ((fun _ _ _ _ => 0) : Handler))
      [SendOutcome.ok]
      [RecvOutcome.data (mkRec 36 2 0 7 0 (i32Bytes (-13) ++ List.replicate 16 0)) 12] =
    ⟨some 13, 1, []⟩ :=
  c8_error_decode (buildN 8).1 (buildN 8).2 _ 7 0 0 (-13) (List.replicate 16 0)
    (by decide) (by decide) (by decide) (by decide) (by decide) (by decide) rfl
